import Mathlib

/-!
Verification of the SeaScript expansion engine (`SeaScript.parse_script` and
`SeaScript.replace_variables` in `src/main.py`) against its natural-language
specification.

Lines of script text are modelled as `List Char`; the Python string
operations used by the source (`strip`, `startswith`, `split(' ')`,
`split('==')`, `' '.join`, `replace`, `int`) are embedded as executable
functions on `List Char`.  Python exceptions raised by the source
(`IndexError` from `split(' ')[1]`, `ValueError` from `int(...)` and from
unpacking `split('==')`, `AttributeError` from the missing
`output_display` attribute) are modelled with `Except`.
-/

namespace SeaScript

/-- Python whitespace test used by `str.strip` (common ASCII whitespace). -/
def isSpace (c : Char) : Bool :=
  c == ' ' || c == '\t' || c == '\n' || c == '\r' || c == '\x0b' || c == '\x0c'

/-- Python `line.strip()`: remove leading and trailing whitespace. -/
def pyStrip (l : List Char) : List Char :=
  ((l.dropWhile isSpace).reverse.dropWhile isSpace).reverse

/-- Python `line.startswith(pre)` on character lists. -/
def startsWith : List Char → List Char → Bool
  | [], _ => true
  | _ :: _, [] => false
  | p :: ps, x :: xs => if p = x then startsWith ps xs else false

/-- Python `line.split(c)` for a single separator character: splits on every
occurrence, keeping empty segments (`'a  b'.split(' ') = ['a', '', 'b']`). -/
def splitOnChar (c : Char) : List Char → List (List Char)
  | [] => [[]]
  | x :: xs =>
    match splitOnChar c xs with
    | [] => [[]]
    | g :: gs => if x = c then [] :: g :: gs else (x :: g) :: gs

/-- Python `condition.split('==')`: split on each non-overlapping occurrence
of `==`, scanning left to right. -/
def splitEqEq : List Char → List (List Char)
  | [] => [[]]
  | [x] => [[x]]
  | x :: y :: rest =>
    if x = '=' ∧ y = '=' then [] :: splitEqEq rest
    else
      match splitEqEq (y :: rest) with
      | [] => [[]]
      | g :: gs => (x :: g) :: gs

/-- Python `' '.join(parts)`. -/
def joinSpace : List (List Char) → List Char
  | [] => []
  | [g] => g
  | g :: gs => g ++ ' ' :: joinSpace gs

/-- Digits of a decimal numeral, most significant first. -/
def digitsOf (l : List Char) : Option Nat :=
  if l ≠ [] ∧ l.all Char.isDigit then
    some (l.foldl (fun a c => a * 10 + (c.toNat - 48)) 0)
  else none

/-- Python `int(s)`: strip whitespace, optional sign, then a nonempty run of
decimal digits; `none` models the `ValueError` raised otherwise.
(Underscore digit grouping, which the scripts never use, is not accepted.) -/
def pyInt? (s : List Char) : Option Int :=
  match pyStrip s with
  | [] => none
  | '+' :: rest => (digitsOf rest).map Int.ofNat
  | '-' :: rest => (digitsOf rest).map (fun n => -(Int.ofNat n))
  | t => (digitsOf t).map Int.ofNat

/-- Python `l.replace(old, new)` with explicit fuel (the fuel is a totality
device; `pyReplace` supplies `l.length`, which is enough because every step
consumes at least one character of `l` when `old` is nonempty — and the
source only ever replaces nonempty patterns of the shape `${name}`). -/
def pyReplaceFuel (old new : List Char) : Nat → List Char → List Char
  | 0, l => l
  | fuel + 1, l =>
    match l with
    | [] => []
    | x :: xs =>
      if startsWith old (x :: xs) then
        new ++ pyReplaceFuel old new fuel ((x :: xs).drop old.length)
      else
        x :: pyReplaceFuel old new fuel xs

/-- Python `l.replace(old, new)`: replace every non-overlapping occurrence of
`old` in `l` by `new`, scanning left to right. -/
def pyReplace (l old new : List Char) : List Char :=
  pyReplaceFuel old new l.length l

/-- Python dict lookup `d.get(k)` on an insertion-ordered association list. -/
def dictGet (d : List (List Char × List Char)) (k : List Char) : Option (List Char) :=
  match d with
  | [] => none
  | (k2, v) :: rest => if k2 = k then some v else dictGet rest k

/-- Python dict assignment `d[k] = v`: update in place, keeping the key's
original position, or append a new entry. -/
def dictSet (d : List (List Char × List Char)) (k v : List Char) :
    List (List Char × List Char) :=
  match d with
  | [] => [(k, v)]
  | (k2, v2) :: rest => if k2 = k then (k2, v) :: rest else (k2, v2) :: dictSet rest k v

/-- `SeaScript.replace_variables`: for each `(name, value)` of the variable
table in insertion order, `line = line.replace('${' + name + '}', value)`. -/
def replace_variables (vars : List (List Char × List Char)) (line : List Char) :
    List Char :=
  match vars with
  | [] => line
  | (name, val) :: rest =>
    replace_variables rest (pyReplace line ('$' :: '\x7b' :: (name ++ ['\x7d'])) val)

/-- Python exceptions that `parse_script` can raise. -/
inductive PyError where
  /-- `IndexError`: `line.split(' ')[1]` on a line with no second token. -/
  | indexError : PyError
  /-- `ValueError`: `int(...)` on a non-numeric token, or unpacking
  `condition.split('==')` into two names when the count differs. -/
  | valueError : PyError
  /-- `AttributeError`: `self.output_display` does not exist on `SeaScript`. -/
  | attributeError : PyError
deriving Repr, DecidableEq

/-- The mutable state of one `parse_script` call: the instance fields
`self.variables` and `self.device` plus the local variables `in_loop`,
`loop_count`, `loop_commands` and `commands`. -/
structure PState where
  vars : List (List Char × List Char)
  device : List Char
  in_loop : Bool
  loop_count : Int
  loop_commands : List (List Char)
  commands : List (List Char)
deriving Repr, DecidableEq

/-- `commands.extend(loop_commands)` executed `n` times
(`for _ in range(loop_count)`). -/
def nTimes (n : Nat) (l : List (List Char)) : List (List Char) :=
  match n with
  | 0 => []
  | k + 1 => l ++ nTimes k l

/-- One iteration of the `for line in lines` body of `parse_script`, applied
to the already-stripped line (the blank/comment skip and every later branch
test the stripped text). -/
def processStripped (s : PState) (line : List Char) : Except PyError PState :=
  if line = [] ∨ startsWith "#".data line = true then
    .ok s
  else if s.in_loop then
    if line = "endloop".data then
      .ok { s with commands := s.commands ++ nTimes s.loop_count.toNat s.loop_commands,
                   in_loop := false, loop_commands := [] }
    else
      .ok { s with loop_commands :=
              s.loop_commands ++ [replace_variables s.vars line] }
  else if startsWith "device".data line then
    match splitOnChar ' ' line with
    | _ :: tok :: _ => .ok { s with device := tok }
    | _ => .error .indexError
  else if startsWith "echo".data line then
    .error .attributeError
  else if startsWith "set".data line then
    match splitOnChar ' ' line with
    | _ :: name :: v0 :: vs => .ok { s with vars := dictSet s.vars name (joinSpace (v0 :: vs)) }
    | _ => .ok s
  else if startsWith "if".data line then
    match splitEqEq (pyStrip (line.drop 3)) with
    | [vn, v] =>
      if dictGet s.vars (pyStrip vn) ≠ some (pyStrip v) then .ok s else .ok s
    | _ => .error .valueError
  else if line = "endif".data then
    .ok s
  else if startsWith "loop".data line then
    match splitOnChar ' ' line with
    | _ :: tok :: _ =>
      match pyInt? tok with
      | some n => .ok { s with loop_count := n, in_loop := true }
      | none => .error .valueError
    | _ => .error .indexError
  else
    .ok { s with commands := s.commands ++ [replace_variables s.vars line] }

/-- One iteration of the `for line in lines` body: strip, then dispatch. -/
def processLine (s : PState) (raw : List Char) : Except PyError PState :=
  processStripped s (pyStrip raw)

/-- The `for line in lines` loop of `parse_script`. -/
def runLines : PState → List (List Char) → Except PyError PState
  | s, [] => .ok s
  | s, raw :: ls =>
    match processLine s raw with
    | .error e => .error e
    | .ok s2 => runLines s2 ls

/-- The state at the top of `parse_script`:
`self.variables = {'device': self.device}` with the constructor-supplied
device, `in_loop = False`, `loop_count = 0`, empty buffers. -/
def initState (device : List Char) : PState :=
  { vars := [("device".data, device)], device := device,
    in_loop := false, loop_count := 0, loop_commands := [], commands := [] }

/-- `SeaScript(device).parse_script(...)` on already-loaded lines: run the
line loop and return `commands` (or the Python exception). -/
def parse_script (device : List Char) (lines : List (List Char)) :
    Except PyError (List (List Char)) :=
  match runLines (initState device) lines with
  | .error e => .error e
  | .ok s => .ok s.commands

end SeaScript

deriving instance DecidableEq for Except

section Sanity
open SeaScript

example : pyStrip "  ab c  ".data = "ab c".data := by decide
example : splitOnChar ' ' "set a  b".data = ["set".data, "a".data, [], "b".data] := by decide
example : splitEqEq "device == X".data = ["device ".data, " X".data] := by decide
example : splitEqEq "a===b".data = ["a".data, "=b".data] := by decide
example : pyInt? "23".data = some 23 := by decide
example : pyInt? "-4".data = some (-4) := by decide
example : pyInt? "$n".data = none := by decide
example : pyReplace "aaa".data "aa".data "b".data = "ba".data := by decide
example : replace_variables [("a".data, "v".data)] "x $\x7ba\x7d y $\x7ba\x7d".data
    = "x v y v".data := by decide
example : parse_script "d".data ["shell ls".data] = .ok ["shell ls".data] := by decide
example : parse_script "Y".data ["if device == X".data, "cmd1".data, "endif".data]
    = .ok ["cmd1".data] := by decide
example : parse_script "old".data ["device new".data, "run $\x7bdevice\x7d".data]
    = .ok ["run old".data] := by decide
example : parse_script "d".data ["loop 2".data, "a".data, "b".data, "endloop".data]
    = .ok ["a".data, "b".data, "a".data, "b".data] := by decide
example : parse_script "d".data ["loop 0".data, "a".data, "endloop".data]
    = .ok [] := by decide
example : parse_script "d".data ["endloop".data] = .ok ["endloop".data] := by decide
example : parse_script "d".data ["a".data, "loop 2".data, "b".data] = .ok ["a".data] := by decide
example : parse_script "d".data ["loop $\x7bn\x7d".data] = .error .valueError := by decide
example : parse_script "d".data ["echo hi".data] = .error .attributeError := by decide
example : parse_script "d".data ["settings put x y".data] = .ok [] := by decide

end Sanity

namespace SeaScript

/-! ## General lemmas about the embedded string operations -/

theorem runLines_append (l1 l2 : List (List Char)) : ∀ s, runLines s (l1 ++ l2) =
    match runLines s l1 with
    | .error e => .error e
    | .ok s2 => runLines s2 l2 := by
  induction l1 with
  | nil => intro s; simp [runLines]
  | cons a as ih =>
    intro s
    simp only [List.cons_append, runLines]
    cases processLine s a with
    | error e => rfl
    | ok s2 => exact ih s2

theorem startsWith_shape : ∀ pre l, startsWith pre l = true → ∃ rest, l = pre ++ rest := by
  intro pre
  induction pre with
  | nil => intro l _; exact ⟨l, rfl⟩
  | cons p ps ih =>
    intro l h
    cases l with
    | nil => simp [startsWith] at h
    | cons x xs =>
      rw [startsWith] at h
      by_cases hpx : p = x
      · rw [if_pos hpx] at h
        obtain ⟨rest, hr⟩ := ih xs h
        exact ⟨rest, by rw [hpx, hr]; rfl⟩
      · rw [if_neg hpx] at h
        exact absurd h (by simp)

theorem splitOnChar_ne_nil (c : Char) : ∀ l, splitOnChar c l ≠ [] := by
  intro l
  induction l with
  | nil => simp [splitOnChar]
  | cons x xs ih =>
    rw [splitOnChar]
    cases h : splitOnChar c xs with
    | nil => simp
    | cons g gs => by_cases hx : x = c <;> simp [hx]

theorem splitOnChar_of_not_mem (c : Char) : ∀ l, (∀ x ∈ l, x ≠ c) → splitOnChar c l = [l] := by
  intro l
  induction l with
  | nil => intro _; rfl
  | cons x xs ih =>
    intro h
    rw [splitOnChar, ih (fun y hy => h y (List.mem_cons_of_mem _ hy))]
    simp [h x (List.mem_cons_self x xs)]

theorem splitOnChar_append (c : Char) : ∀ a b, (∀ x ∈ a, x ≠ c) →
    splitOnChar c (a ++ c :: b) = a :: splitOnChar c b := by
  intro a
  induction a with
  | nil =>
    intro b _
    rw [List.nil_append, splitOnChar]
    cases h : splitOnChar c b with
    | nil => exact absurd h (splitOnChar_ne_nil c b)
    | cons g gs => simp [h]
  | cons x xs ih =>
    intro b h
    have hx : x ≠ c := h x (List.mem_cons_self x xs)
    rw [List.cons_append, splitOnChar, ih b (fun y hy => h y (List.mem_cons_of_mem x hy))]
    simp [hx]

theorem dropWhile_eq_self_of_all (p : Char → Bool) (l : List Char)
    (h : ∀ c ∈ l, p c = false) : List.dropWhile p l = l := by
  cases l with
  | nil => rfl
  | cons x xs => simp [List.dropWhile_cons, h x (List.mem_cons_self x xs)]

theorem dropWhile_cons_false (p : Char → Bool) (x : Char) (xs : List Char)
    (h : p x = false) : List.dropWhile p (x :: xs) = x :: xs := by
  simp [List.dropWhile_cons, h]

theorem pyStrip_all (l : List Char) (h : ∀ c ∈ l, isSpace c = false) : pyStrip l = l := by
  unfold pyStrip
  rw [dropWhile_eq_self_of_all _ l h]
  rw [dropWhile_eq_self_of_all _ l.reverse (fun c hc => h c (List.mem_reverse.mp hc))]
  exact List.reverse_reverse l

theorem pyStrip_eq_self (l : List Char)
    (h1 : ∃ x xs, l = x :: xs ∧ isSpace x = false)
    (h2 : ∃ y, l.getLast? = some y ∧ isSpace y = false) : pyStrip l = l := by
  obtain ⟨x, xs, rfl, hx⟩ := h1
  obtain ⟨y, hy, hys⟩ := h2
  unfold pyStrip
  rw [dropWhile_cons_false _ _ _ hx]
  have hrev : (x :: xs).reverse.head? = some y := by
    rw [List.head?_reverse]; exact hy
  cases hr : (x :: xs).reverse with
  | nil => simp at hr
  | cons z zs =>
    rw [hr] at hrev
    simp only [List.head?_cons, Option.some.injEq] at hrev
    rw [dropWhile_cons_false _ _ _ (by rw [hrev]; exact hys)]
    rw [← hr, List.reverse_reverse]

theorem pyStrip_append_space (l : List Char) (h : ∀ c ∈ l, isSpace c = false) :
    pyStrip (l ++ [' ']) = l := by
  cases l with
  | nil => decide
  | cons x xs =>
    rw [List.cons_append]
    unfold pyStrip
    rw [dropWhile_cons_false _ _ _ (h x (List.mem_cons_self x xs))]
    rw [show (x :: (xs ++ [' '])).reverse = ' ' :: (x :: xs).reverse by simp]
    rw [List.dropWhile_cons]
    rw [if_pos (by decide)]
    rw [dropWhile_eq_self_of_all _ (x :: xs).reverse
      (fun c hc => h c (List.mem_reverse.mp hc))]
    exact List.reverse_reverse _

theorem pyStrip_space_cons (l : List Char) (h : ∀ c ∈ l, isSpace c = false) :
    pyStrip (' ' :: l) = l := by
  unfold pyStrip
  rw [List.dropWhile_cons, if_pos (by decide)]
  rw [dropWhile_eq_self_of_all _ l h]
  rw [dropWhile_eq_self_of_all _ l.reverse (fun c hc => h c (List.mem_reverse.mp hc))]
  exact List.reverse_reverse l

theorem pyReplaceFuel_no_head (t new : List Char) (c : Char) : ∀ fuel l, (∀ a ∈ l, a ≠ c) →
    pyReplaceFuel (c :: t) new fuel l = l := by
  intro fuel
  induction fuel with
  | zero => intro l _; rfl
  | succ f ih =>
    intro l h
    cases l with
    | nil => rfl
    | cons x xs =>
      rw [pyReplaceFuel]
      have hsw : startsWith (c :: t) (x :: xs) = false := by
        rw [startsWith, if_neg (fun hcx => (h x (List.mem_cons_self x xs)) hcx.symm)]
      simp only [hsw, Bool.false_eq_true, if_false]
      rw [ih xs (fun a ha => h a (List.mem_cons_of_mem x ha))]

theorem replace_variables_no_dollar : ∀ vars l, (∀ a ∈ l, a ≠ '$') →
    replace_variables vars l = l := by
  intro vars
  induction vars with
  | nil => intro l _; rfl
  | cons kv rest ih =>
    intro l h
    obtain ⟨name, val⟩ := kv
    rw [replace_variables]
    rw [show pyReplace l ('$' :: '\x7b' :: (name ++ ['\x7d'])) val = l from
      pyReplaceFuel_no_head _ _ _ _ l h]
    exact ih l h

theorem nTimes_length (l : List (List Char)) : ∀ n, (nTimes n l).length = n * l.length := by
  intro n
  induction n with
  | zero => simp [nTimes]
  | succ k ih => simp [nTimes, List.length_append, ih, Nat.succ_mul, Nat.add_comm]

theorem splitEqEq_no_eq : ∀ l, (∀ x ∈ l, x ≠ '=') → splitEqEq l = [l] := by
  intro l
  induction l with
  | nil => intro _; rfl
  | cons x xs ih =>
    intro h
    cases xs with
    | nil => rfl
    | cons y rest =>
      rw [splitEqEq]
      rw [if_neg (fun hc => (h x (List.mem_cons_self x (y :: rest))) hc.1)]
      rw [ih (fun c hc => h c (List.mem_cons_of_mem x hc))]

theorem splitEqEq_append : ∀ a b, (∀ x ∈ a, x ≠ '=') →
    splitEqEq (a ++ '=' :: '=' :: b) = a :: splitEqEq b := by
  intro a
  induction a with
  | nil =>
    intro b _
    rw [List.nil_append, splitEqEq, if_pos ⟨rfl, rfl⟩]
  | cons x xs ih =>
    intro b h
    have hx : x ≠ '=' := h x (List.mem_cons_self x xs)
    have key : splitEqEq (xs ++ '=' :: '=' :: b) = xs :: splitEqEq b :=
      ih b (fun c hc => h c (List.mem_cons_of_mem x hc))
    rw [List.cons_append]
    cases hxe : xs ++ '=' :: '=' :: b with
    | nil => exact absurd hxe (by simp)
    | cons y rest =>
      rw [hxe] at key
      have step : splitEqEq (x :: y :: rest) =
          if x = '=' ∧ y = '=' then [] :: splitEqEq rest
          else match splitEqEq (y :: rest) with
            | [] => [[]]
            | g :: gs => (x :: g) :: gs := rfl
      rw [step, if_neg (fun hc => hx hc.1), key]

/-! ## Step lemmas: the branches of `processStripped` -/

theorem processStripped_device (s : PState) (name : List Char)
    (hin : s.in_loop = false)
    (hns : ∀ c ∈ name, c ≠ ' ') :
    processStripped s ('d' :: 'e' :: 'v' :: 'i' :: 'c' :: 'e' :: ' ' ::name) =
      .ok { s with device := name } := by
  unfold processStripped
  rw [if_neg (by simp [startsWith])]
  rw [hin]
  rw [if_neg (by simp)]
  rw [if_pos (by simp [startsWith])]
  rw [show ('d' :: 'e' :: 'v' :: 'i' :: 'c' :: 'e' :: ' ' ::name) = "device".data ++ ' ' :: name from rfl]
  rw [splitOnChar_append ' ' "device".data name (by decide)]
  rw [splitOnChar_of_not_mem ' ' name hns]

theorem processStripped_echo (s : PState) (line : List Char)
    (hin : s.in_loop = false)
    (h : startsWith "echo".data line = true) :
    processStripped s line = .error .attributeError := by
  obtain ⟨rest, rfl⟩ := startsWith_shape _ _ h
  rw [show "echo".data ++ rest = 'e' :: 'c' :: 'h' :: 'o' ::rest from rfl]
  unfold processStripped
  rw [if_neg (by simp [startsWith])]
  rw [hin]
  rw [if_neg (by simp)]
  rw [if_neg (by simp [startsWith])]
  rw [if_pos (by simp [startsWith])]

theorem processStripped_endloop_normal (s : PState) (hin : s.in_loop = false) :
    processStripped s "endloop".data =
      .ok { s with commands := s.commands ++ ["endloop".data] } := by
  have h1 : processStripped s "endloop".data =
      .ok { s with commands := s.commands ++ [replace_variables s.vars "endloop".data] } := by
    unfold processStripped
    rw [hin]
    rfl
  rw [h1, replace_variables_no_dollar s.vars "endloop".data (by decide)]

theorem processStripped_loop_open (s : PState) (tok : List Char) (m : Int)
    (hin : s.in_loop = false)
    (htk : ∀ c ∈ tok, c ≠ ' ')
    (hn : pyInt? tok = some m) :
    processStripped s ('l' :: 'o' :: 'o' :: 'p' :: ' ' ::tok) =
      .ok { s with loop_count := m, in_loop := true } := by
  unfold processStripped
  rw [if_neg (by simp [startsWith])]
  rw [hin]
  rw [if_neg (by simp)]
  rw [if_neg (by simp [startsWith])]
  rw [if_neg (by simp [startsWith])]
  rw [if_neg (by simp [startsWith])]
  rw [if_neg (by simp [startsWith])]
  rw [if_neg (by simp)]
  rw [if_pos (by simp [startsWith])]
  rw [show ('l' :: 'o' :: 'o' :: 'p' :: ' ' ::tok) = "loop".data ++ ' ' :: tok from rfl]
  rw [splitOnChar_append ' ' "loop".data tok (by decide)]
  rw [splitOnChar_of_not_mem ' ' tok htk]
  simp [hn]

theorem processStripped_capture (s : PState) (line : List Char)
    (hin : s.in_loop = true) (hne : line ≠ [])
    (h1 : startsWith "#".data line = false)
    (h2 : line ≠ "endloop".data) :
    processStripped s line =
      .ok { s with loop_commands := s.loop_commands ++ [replace_variables s.vars line] } := by
  unfold processStripped
  rw [if_neg (by simp [hne, h1])]
  rw [hin]
  rw [if_pos rfl]
  rw [if_neg h2]

theorem processStripped_endloop_inloop (s : PState) (hin : s.in_loop = true) :
    processStripped s "endloop".data =
      .ok { s with commands := s.commands ++ nTimes s.loop_count.toNat s.loop_commands,
                   in_loop := false, loop_commands := [] } := by
  unfold processStripped
  rw [if_neg (by decide)]
  rw [hin]
  rfl

theorem processStripped_command (s : PState) (line : List Char)
    (hin : s.in_loop = false) (hne : line ≠ [])
    (h1 : startsWith "#".data line = false)
    (h2 : startsWith "device".data line = false)
    (h3 : startsWith "echo".data line = false)
    (h4 : startsWith "set".data line = false)
    (h5 : startsWith "if".data line = false)
    (h6 : line ≠ "endif".data)
    (h7 : startsWith "loop".data line = false) :
    processStripped s line =
      .ok { s with commands := s.commands ++ [replace_variables s.vars line] } := by
  unfold processStripped
  rw [if_neg (by simp [hne, h1])]
  rw [hin]
  rw [if_neg (by simp)]
  rw [if_neg (by simp [h2])]
  rw [if_neg (by simp [h3])]
  rw [if_neg (by simp [h4])]
  rw [if_neg (by simp [h5])]
  rw [if_neg h6]
  rw [if_neg (by simp [h7])]

theorem processStripped_if_missing (s : PState) (var exp : List Char)
    (hv : var ≠ []) (hvs : ∀ c ∈ var, isSpace c = false ∧ c ≠ '=')
    (he : exp ≠ []) (hes : ∀ c ∈ exp, isSpace c = false ∧ c ≠ '=')
    (hin : s.in_loop = false) :
    processStripped s ('i' :: 'f' :: ' ' ::(var ++ ' ' :: '=' :: '=' :: ' ' ::exp)) = .ok s := by
  obtain ⟨v, vt, rfl⟩ := List.exists_cons_of_ne_nil hv
  obtain ⟨e, et, rfl⟩ := List.exists_cons_of_ne_nil he
  unfold processStripped
  rw [if_neg (by simp [startsWith])]
  rw [hin]
  rw [if_neg (by simp)]
  rw [if_neg (by simp [startsWith])]
  rw [if_neg (by simp [startsWith])]
  rw [if_neg (by simp [startsWith])]
  rw [if_pos (by simp [startsWith])]
  rw [show (('i' :: 'f' :: ' ' ::((v :: vt) ++ ' ' :: '=' :: '=' :: ' ' ::(e :: et))).drop 3)
        = (v :: vt) ++ ' ' :: '=' :: '=' :: ' ' ::(e :: et) from rfl]
  rw [pyStrip_eq_self ((v :: vt) ++ ' ' :: '=' :: '=' :: ' ' ::(e :: et))
    ⟨v, vt ++ ' ' :: '=' :: '=' :: ' ' ::(e :: et), by rw [List.cons_append],
      (hvs v (List.mem_cons_self v vt)).1⟩
    ⟨(e :: et).getLast (by simp), by
      constructor
      · rw [List.getLast?_append_of_ne_nil _ (by simp)]
        rw [show (' ' :: '=' :: '=' :: ' ' ::(e :: et)) = [' ','=','=',' '] ++ (e :: et) from rfl]
        rw [List.getLast?_append_of_ne_nil _ (by simp)]
        exact List.getLast?_eq_getLast_of_ne_nil (by simp)
      · exact (hes _ (List.getLast_mem (by simp))).1⟩]
  rw [show (v :: vt) ++ ' ' :: '=' :: '=' :: ' ' ::(e :: et)
        = ((v :: vt) ++ [' ']) ++ '=' :: '=' ::(' ' ::(e :: et)) by simp]
  rw [splitEqEq_append ((v :: vt) ++ [' ']) (' ' ::(e :: et)) (by
    intro x hx
    rcases List.mem_append.mp hx with hx1 | hx2
    · exact (hvs x hx1).2
    · rw [List.mem_singleton.mp hx2]; decide)]
  rw [splitEqEq_no_eq (' ' ::(e :: et)) (by
    intro x hx
    rcases List.mem_cons.mp hx with hx1 | hx2
    · rw [hx1]; decide
    · exact (hes x hx2).2)]
  show (if dictGet s.vars (pyStrip ((v :: vt) ++ [' '])) ≠ some (pyStrip (' ' :: (e :: et)))
      then (Except.ok s : Except PyError PState) else Except.ok s) = Except.ok s
  rw [pyStrip_append_space (v :: vt) (fun c hc => (hvs c hc).1)]
  rw [pyStrip_space_cons (e :: et) (fun c hc => (hes c hc).1)]
  split <;> rfl

theorem runLines_capture : ∀ (body : List (List Char)) (s : PState) (rest : List (List Char)),
    s.in_loop = true →
    (∀ b ∈ body, pyStrip b ≠ [] ∧ startsWith "#".data (pyStrip b) = false ∧
      pyStrip b ≠ "endloop".data) →
    runLines s (body ++ rest) =
      runLines { s with loop_commands :=
        s.loop_commands ++ body.map (fun b => replace_variables s.vars (pyStrip b)) } rest := by
  intro body
  induction body with
  | nil =>
    intro s rest _ _
    simp only [List.nil_append, List.map_nil, List.append_nil]
  | cons b bs ih =>
    intro s rest hin hb
    obtain ⟨hne, hh, hend⟩ := hb b (List.mem_cons_self b bs)
    rw [List.cons_append, runLines]
    rw [show processLine s b = processStripped s (pyStrip b) from rfl]
    rw [processStripped_capture s (pyStrip b) hin hne hh hend]
    rw [show (match (Except.ok { s with loop_commands :=
          s.loop_commands ++ [replace_variables s.vars (pyStrip b)] } :
            Except PyError PState) with
        | .error e => (.error e : Except PyError PState)
        | .ok s2 => runLines s2 (bs ++ rest))
      = runLines { s with loop_commands :=
          s.loop_commands ++ [replace_variables s.vars (pyStrip b)] } (bs ++ rest) from rfl]
    rw [ih { s with loop_commands := s.loop_commands ++ [replace_variables s.vars (pyStrip b)] }
      rest hin (fun x hx => hb x (List.mem_cons_of_mem b hx))]
    simp [List.append_assoc]

theorem runLines_capture_all (body : List (List Char)) (s : PState)
    (hin : s.in_loop = true)
    (hbody : ∀ b ∈ body, pyStrip b ≠ [] ∧ startsWith "#".data (pyStrip b) = false ∧
      pyStrip b ≠ "endloop".data) :
    runLines s body = .ok ({ s with loop_commands := s.loop_commands ++ body.map (fun b => replace_variables s.vars (pyStrip b)) }) := by
  have h := runLines_capture body s [] hin hbody
  rw [List.append_nil] at h
  rw [h, runLines]

theorem parse_script_split (device : List Char) (pre l2 : List (List Char)) (s : PState)
    (hpre : runLines (initState device) pre = .ok s) :
    parse_script device (pre ++ l2) =
      (match runLines s l2 with
        | .error e => (.error e : Except PyError (List (List Char)))
        | .ok s2 => .ok s2.commands) := by
  unfold parse_script
  rw [runLines_append, hpre]

/-! ## Claim theorems -/

/-- Claim C1: the claim says that when `table[var] ≠ expected`, the body lines
of an `if var == expected` block are absent from the output.  The code does
not do this: both outcomes of the condition merely skip the `if` line itself
(despite the source's own comment saying it skips subsequent commands until
`endif`), so with active device `Y ≠ X` the body line `cmd1` is still
emitted.  This theorem evaluates the code at that failing input. -/
theorem c1_gate_never_closes :
    parse_script "Y".data ["if device == X".data, "cmd1".data, "endif".data] =
      .ok ["cmd1".data] := by decide

/-- Counterexample to Claim C2: after `device new` with initial device `old`,
a later `$\x7bdevice\x7d` still substitutes to `old`, not `new` — the table's
`device` entry is not updated. -/
theorem c2_counterexample :
    parse_script "old".data ["device new".data, "run $\x7bdevice\x7d".data] =
      .ok ["run old".data] ∧ "run old".data ≠ "run new".data :=
  ⟨by decide, by decide⟩

/-- Claim C2 (amended): processing `device name` in Normal state updates only
the parser's device field; the variable table (and hence every subsequent
`$\x7bdevice\x7d` substitution) and the emitted commands are unchanged, and
the directive emits no command. -/
theorem c2_device_updates_field_only (s : PState) (name : List Char)
    (hin : s.in_loop = false) (hns : ∀ c ∈ name, c ≠ ' ') :
    processStripped s ('d' :: 'e' :: 'v' :: 'i' :: 'c' :: 'e' :: ' ' ::name) =
      .ok { s with device := name } :=
  processStripped_device s name hin hns

/-- Witness for Claim C2's amended theorem at a concrete input. -/
theorem c2_witness :
    processStripped (initState "old".data) ('d' :: 'e' :: 'v' :: 'i' :: 'c' :: 'e' :: ' ' ::"new".data) =
      .ok { initState "old".data with device := "new".data } :=
  c2_device_updates_field_only (initState "old".data) "new".data rfl (by decide)

/-- Counterexample to Claim C4: the line `settings put x y` is not emitted as
a command — its first token merely begins with the keyword `set`, yet the
code's prefix matching treats it as a `set` directive and emits nothing. -/
theorem c4_counterexample :
    parse_script "d".data ["settings put x y".data] = .ok [] ∧
    ([] : List (List Char)) ≠ ["settings put x y".data] :=
  ⟨by decide, by decide⟩

/-- Claim C4 (amended): classification is by case-sensitive line prefix, not
by first whitespace-delimited token.  A trimmed non-empty non-comment line
that does not start with the prefixes `device`, `echo`, `set`, `if`, `loop`
and is not exactly `endif` is a Command, emitted whole after substitution;
a line such as `settings put x y`, whose first token merely begins with
`set`, is processed as a `set` directive (storing `put ↦ x y`) and emits
nothing. -/
theorem c4_prefix_classification (s : PState) (line : List Char)
    (hin : s.in_loop = false) (hne : line ≠ [])
    (h1 : startsWith "#".data line = false)
    (h2 : startsWith "device".data line = false)
    (h3 : startsWith "echo".data line = false)
    (h4 : startsWith "set".data line = false)
    (h5 : startsWith "if".data line = false)
    (h6 : line ≠ "endif".data)
    (h7 : startsWith "loop".data line = false) :
    processStripped s line =
      .ok { s with commands := s.commands ++ [replace_variables s.vars line] } ∧
    processStripped s "settings put x y".data =
      .ok { s with vars := dictSet s.vars "put".data "x y".data } := by
  constructor
  · exact processStripped_command s line hin hne h1 h2 h3 h4 h5 h6 h7
  · unfold processStripped
    rw [hin]
    rfl

/-- Witness for Claim C4's amended theorem at a concrete input. -/
theorem c4_witness :
    processStripped (initState "d".data) "shell ls".data =
      .ok { initState "d".data with commands := ["shell ls".data] } ∧
    processStripped (initState "d".data) "settings put x y".data =
      .ok { initState "d".data with
            vars := dictSet (initState "d".data).vars "put".data "x y".data } :=
  c4_prefix_classification (initState "d".data) "shell ls".data rfl (by decide) (by decide)
    (by decide) (by decide) (by decide) (by decide) (by decide) (by decide)

/-- Counterexample to Claim C5: an `endloop` with no open loop does not fail
with any error — the line falls through classification and is emitted as an
ordinary command. -/
theorem c5_counterexample :
    parse_script "d".data ["endloop".data] = .ok ["endloop".data] := by decide

/-- Claim C5 (amended): an `endloop` line processed with no open loop is not
an error; it matches no keyword branch and is emitted as an ordinary
(substituted) command, and expansion continues. -/
theorem c5_endloop_emitted (s : PState) (raw : List Char)
    (hin : s.in_loop = false) (hs : pyStrip raw = "endloop".data) :
    processLine s raw = .ok { s with commands := s.commands ++ ["endloop".data] } := by
  rw [show processLine s raw = processStripped s (pyStrip raw) from rfl, hs]
  exact processStripped_endloop_normal s hin

/-- Witness for Claim C5's amended theorem at a concrete input. -/
theorem c5_witness :
    processLine (initState "d".data) "endloop".data =
      .ok { initState "d".data with commands := ["endloop".data] } :=
  c5_endloop_emitted (initState "d".data) "endloop".data rfl (by decide)

/-- Claim C7: the `loop` count is read as a literal token and never passed
through the substitution engine: whatever the variable table holds (for any
state `s`, including one mapping `n` to a numeric string), `loop $\x7bn\x7d`
fails (the `ValueError` of Python `int`, the code's form of a malformed
directive), and a missing second token fails with `IndexError` instead of
defaulting. -/
theorem c7_loop_count_literal (s : PState) (hin : s.in_loop = false) :
    processStripped s "loop $\x7bn\x7d".data = .error .valueError ∧
    processStripped s "loop".data = .error .indexError := by
  constructor
  · unfold processStripped
    rw [hin]
    rfl
  · unfold processStripped
    rw [hin]
    rfl

/-- Witness for Claim C7 with a table that maps `n` to the numeric string
`2`: the loop count still fails rather than resolving to 2. -/
theorem c7_witness :
    processStripped ⟨[("n".data, "2".data)], "d".data, false, 0, [], []⟩
      "loop $\x7bn\x7d".data = .error .valueError ∧
    processStripped ⟨[("n".data, "2".data)], "d".data, false, 0, [], []⟩
      "loop".data = .error .indexError :=
  c7_loop_count_literal ⟨[("n".data, "2".data)], "d".data, false, 0, [], []⟩ rfl

/-- Counterexample to Claim C8: with the claim's own table
`a ↦ $\x7bb\x7d`, `b ↦ x` (in that insertion order), substituting
`$\x7ba\x7d` yields `x`, not the literal `$\x7bb\x7d` the claim predicts —
the value substituted for `a` is rescanned by the later entry `b`. -/
theorem c8_counterexample :
    replace_variables [("a".data, "$\x7bb\x7d".data), ("b".data, "x".data)]
      "$\x7ba\x7d".data = "x".data ∧ "x".data ≠ "$\x7bb\x7d".data :=
  ⟨by decide, by decide⟩

/-- Claim C8 (amended): substitution applies each table entry once, in
insertion order, via a global string replace; a value substituted for an
earlier entry is itself subject to the replacements of entries iterated
later (so the claim's example yields `x`), while all occurrences of one
name do receive the same value. -/
theorem c8_cascading_substitution :
    replace_variables [("a".data, "$\x7bb\x7d".data), ("b".data, "x".data)]
      "$\x7ba\x7d".data = "x".data ∧
    replace_variables [("a".data, "v".data)] "run $\x7ba\x7d $\x7ba\x7d".data =
      "run v v".data :=
  ⟨by decide, by decide⟩

/-- Claim C10: an `if var == expected` line processed in Normal state with
`var` absent from the variable table raises no error, and the condition
compares `None` with the expected string, which never succeeds, for every
well-formed expected value. -/
theorem c10_missing_var_false (s : PState) (var exp : List Char)
    (hin : s.in_loop = false)
    (habs : dictGet s.vars var = none)
    (hv : var ≠ []) (hvs : ∀ c ∈ var, isSpace c = false ∧ c ≠ '=')
    (he : exp ≠ []) (hes : ∀ c ∈ exp, isSpace c = false ∧ c ≠ '=') :
    dictGet s.vars var ≠ some exp ∧
    processStripped s ('i' :: 'f' :: ' ' ::(var ++ ' ' :: '=' :: '=' :: ' ' ::exp)) = .ok s := by
  constructor
  · rw [habs]
    exact fun h => by cases h
  · exact processStripped_if_missing s var exp hv hvs he hes hin

/-- Claim C3: a `loop n` block (count token parsing to the natural `n`)
followed by body lines and `endloop` contributes exactly the body lines,
substituted with the table state at capture time, repeated `n` consecutive
times in original order — `n * k` lines for `k` body lines, and zero lines
for `n = 0`. -/
theorem c3_loop_unrolls (s : PState) (tok : List Char) (n : Nat)
    (loopLine endLine : List Char) (body rest : List (List Char))
    (hin : s.in_loop = false) (hlc : s.loop_commands = [])
    (hll : pyStrip loopLine = 'l' :: 'o' :: 'o' :: 'p' :: ' ' ::tok)
    (htk : ∀ c ∈ tok, c ≠ ' ')
    (hn : pyInt? tok = some (Int.ofNat n))
    (hend : pyStrip endLine = "endloop".data)
    (hbody : ∀ b ∈ body, pyStrip b ≠ [] ∧ startsWith "#".data (pyStrip b) = false ∧
      pyStrip b ≠ "endloop".data) :
    runLines s (loopLine :: (body ++ endLine :: rest)) =
      runLines { s with commands := s.commands ++ nTimes n (body.map (fun b => replace_variables s.vars (pyStrip b))), loop_count := Int.ofNat n, in_loop := false, loop_commands := [] } rest ∧
    (nTimes n (body.map (fun b => replace_variables s.vars (pyStrip b)))).length =
      n * body.length := by
  obtain ⟨vs, dv, il, lcnt, lcmds, cmds⟩ := s
  have hin2 : il = false := hin
  have hlc2 : lcmds = [] := hlc
  subst hin2
  subst hlc2
  refine ⟨?_, ?_⟩
  · have h1 : runLines ⟨vs, dv, false, lcnt, [], cmds⟩ (loopLine :: (body ++ endLine :: rest))
        = runLines ⟨vs, dv, true, Int.ofNat n, [], cmds⟩ (body ++ endLine :: rest) := by
      rw [runLines,
        show processLine ⟨vs, dv, false, lcnt, [], cmds⟩ loopLine
          = processStripped ⟨vs, dv, false, lcnt, [], cmds⟩ (pyStrip loopLine) from rfl,
        hll,
        processStripped_loop_open ⟨vs, dv, false, lcnt, [], cmds⟩ tok (Int.ofNat n) rfl htk hn]
    have h2 : runLines ⟨vs, dv, true, Int.ofNat n, [], cmds⟩ (body ++ endLine :: rest)
        = runLines ⟨vs, dv, true, Int.ofNat n, List.map (fun b => replace_variables vs (pyStrip b)) body, cmds⟩ (endLine :: rest) := by
      rw [runLines_capture body ⟨vs, dv, true, Int.ofNat n, [], cmds⟩ (endLine :: rest) rfl hbody]
      exact rfl
    have h3 : runLines ⟨vs, dv, true, Int.ofNat n, List.map (fun b => replace_variables vs (pyStrip b)) body, cmds⟩ (endLine :: rest)
        = runLines ⟨vs, dv, false, Int.ofNat n, [], cmds ++ nTimes n (List.map (fun b => replace_variables vs (pyStrip b)) body)⟩ rest := by
      rw [runLines,
        show processLine ⟨vs, dv, true, Int.ofNat n, List.map (fun b => replace_variables vs (pyStrip b)) body, cmds⟩ endLine
          = processStripped ⟨vs, dv, true, Int.ofNat n, List.map (fun b => replace_variables vs (pyStrip b)) body, cmds⟩ (pyStrip endLine) from rfl,
        hend,
        processStripped_endloop_inloop
          ⟨vs, dv, true, Int.ofNat n, List.map (fun b => replace_variables vs (pyStrip b)) body, cmds⟩ rfl]
      exact rfl
    exact h1.trans (h2.trans h3)
  · rw [nTimes_length, List.length_map]

/-- Witness for Claim C3: `loop 2` over two body lines produces the two
substituted lines twice, four commands in all. -/
theorem c3_witness :
    runLines (initState "d".data)
      ("loop 2".data :: (["shell a".data, "shell b".data] ++ "endloop".data :: [])) =
      runLines (⟨[("device".data, "d".data)], "d".data, false, Int.ofNat 2, [],
        ["shell a".data, "shell b".data, "shell a".data, "shell b".data]⟩ : PState) [] ∧
    (nTimes 2 (["shell a".data, "shell b".data].map
      (fun b => replace_variables (initState "d".data).vars (pyStrip b)))).length = 2 * 2 :=
  c3_loop_unrolls (initState "d".data) "2".data 2 "loop 2".data "endloop".data
    ["shell a".data, "shell b".data] [] rfl rfl (by decide) (by decide) (by decide)
    (by decide) (by decide)

/-- Counterexample to Claim C6: a script whose input ends while a loop block
is still open does not fail with any error — the code returns the commands
emitted before the loop and silently discards the captured body. -/
theorem c6_counterexample :
    parse_script "d".data ["cmd1".data, "loop 2".data, "cmd2".data] = .ok ["cmd1".data] := by
  decide

/-- Claim C6 (amended): when the input ends while a loop block is still open,
expansion succeeds and returns exactly the commands emitted before the
`loop` line; the captured body is discarded (there is no
`UnterminatedBlock` error in the code). -/
theorem c6_unterminated_loop_ok (device : List Char) (pre : List (List Char)) (s : PState)
    (tok loopLine : List Char) (m : Int) (body : List (List Char))
    (hpre : runLines (initState device) pre = .ok s)
    (hin : s.in_loop = false)
    (hll : pyStrip loopLine = 'l' :: 'o' :: 'o' :: 'p' :: ' ' ::tok)
    (htk : ∀ c ∈ tok, c ≠ ' ')
    (hn : pyInt? tok = some m)
    (hbody : ∀ b ∈ body, pyStrip b ≠ [] ∧ startsWith "#".data (pyStrip b) = false ∧
      pyStrip b ≠ "endloop".data) :
    parse_script device (pre ++ loopLine :: body) = .ok s.commands := by
  have hrun : runLines s (loopLine :: body) =
      .ok ({ s with loop_count := m, in_loop := true, loop_commands := s.loop_commands ++ body.map (fun b => replace_variables s.vars (pyStrip b)) }) := by
    rw [runLines,
      show processLine s loopLine = processStripped s (pyStrip loopLine) from rfl,
      hll,
      processStripped_loop_open s tok m hin htk hn]
    show runLines { s with loop_count := m, in_loop := true } body = _
    rw [runLines_capture_all body { s with loop_count := m, in_loop := true } rfl hbody]
  rw [parse_script_split device pre (loopLine :: body) s hpre, hrun]

/-- Witness for Claim C6's amended theorem at a concrete input. -/
theorem c6_witness :
    parse_script "d".data (["shell a".data] ++ "loop 3".data :: ["shell b".data]) =
      .ok ["shell a".data] :=
  c6_unterminated_loop_ok "d".data ["shell a".data]
    ⟨[("device".data, "d".data)], "d".data, false, 0, [], ["shell a".data]⟩
    "3".data "loop 3".data 3 ["shell b".data]
    (by decide) rfl (by decide) (by decide) (by decide) (by decide)

/-- Claim C9: any script that, in Normal state (outside a loop body), reaches
a line whose stripped text starts with `echo` raises `AttributeError`
(`SeaScript` has no `output_display` attribute), so no command sequence is
returned. -/
theorem c9_echo_raises (device : List Char) (pre post : List (List Char)) (l : List Char)
    (s : PState)
    (hpre : runLines (initState device) pre = .ok s)
    (hin : s.in_loop = false)
    (hecho : startsWith "echo".data (pyStrip l) = true) :
    parse_script device (pre ++ l :: post) = .error .attributeError := by
  rw [parse_script_split device pre (l :: post) s hpre]
  rw [runLines,
    show processLine s l = processStripped s (pyStrip l) from rfl,
    processStripped_echo s (pyStrip l) hin hecho]

/-- Witness for Claim C9 at a concrete input. -/
theorem c9_witness :
    parse_script "d".data (["shell ls".data] ++ "echo hi".data :: ["reboot".data]) =
      .error .attributeError :=
  c9_echo_raises "d".data ["shell ls".data] ["reboot".data] "echo hi".data
    ⟨[("device".data, "d".data)], "d".data, false, 0, [], ["shell ls".data]⟩
    (by decide) rfl (by decide)

/-- Witness for Claim C10 at a concrete input. -/
theorem c10_witness :
    dictGet (initState "d".data).vars "missing".data ≠ some "X".data ∧
    processStripped (initState "d".data)
      ('i' :: 'f' :: ' ' ::("missing".data ++ ' ' :: '=' :: '=' :: ' ' ::"X".data)) =
      .ok (initState "d".data) :=
  c10_missing_var_false (initState "d".data) "missing".data "X".data rfl (by decide)
    (by decide) (by decide) (by decide) (by decide)

end SeaScript
